import Mathlib

/-!
Verification of the USD repository fragment: the `edgeId.glslfx` shader
mixins (per-fragment edge identification) and the Maya skeleton
translator `translatorSkel.cpp` (joint creation, bind poses, skin
cluster weights).

GLSL floats are modelled as rationals (`ℚ`); the shader logic under
study is pure comparison/selection logic, faithfully represented over
any ordered field.
-/

namespace EdgeId

/-- `pickRadius` constant from `EdgeId.Fragment.Bary` / `EdgeId.Fragment.Rect`. -/
def pickRadius : ℚ := 0.02

/-- The `barys` array from `GetBaryCoord` in `EdgeId.Geometry.Bary`:
`barys[0] = (1,0,0)`, `barys[1] = (0,1,0)`, `barys[2] = (0,0,1)`. -/
def barys : List (ℚ × ℚ × ℚ) := [(1, 0, 0), (0, 1, 0), (0, 0, 1)]

/-- `GetBaryCoord(index)` returns `barys[index].yz`; the unchecked array
access is modelled with `List.get?`, so an out-of-bounds access is `none`. -/
def GetBaryCoord (index : ℕ) : Option (ℚ × ℚ) :=
  (barys.get? index).map (fun b => (b.2.1, b.2.2))

/-- `ExpandBaryCoord(bc) = vec3(1 - bc.x - bc.y, bc.x, bc.y)`
from `EdgeId.Fragment.Bary`. -/
def ExpandBaryCoord (bc : ℚ × ℚ) : ℚ × ℚ × ℚ :=
  (1 - bc.1 - bc.2, bc.1, bc.2)

/-- `GetPrimitiveEdgeId()` of `EdgeId.Fragment.Bary`: expand the
interpolated coordinate `gsBaryCoord`, then pick the edge id by the
sequential if/else-if chain on the components against `pickRadius`. -/
def GetPrimitiveEdgeId_Bary (gsBaryCoord : ℚ × ℚ) : ℤ :=
  let baryCoord := ExpandBaryCoord gsBaryCoord
  if baryCoord.2.2 < pickRadius then 0
  else if baryCoord.1 < pickRadius then 1
  else if baryCoord.2.1 < pickRadius then 2
  else -1

/-- `IsFragmentOnEdge()` of `EdgeId.Fragment.Bary`:
`any(lessThan(bc, vec3(pickRadius)))` componentwise. -/
def IsFragmentOnEdge_Bary (gsBaryCoord : ℚ × ℚ) : Bool :=
  let bc := ExpandBaryCoord gsBaryCoord
  bc.1 < pickRadius || bc.2.1 < pickRadius || bc.2.2 < pickRadius

/-- `GetPrimitiveEdgeId()` of `EdgeId.Fragment.Rect`: thresholds
`delLow = pickRadius` and `delHigh = 1 - delLow` applied to `uv = gsRect`
by the sequential if/else-if chain. -/
def GetPrimitiveEdgeId_Rect (gsRect : ℚ × ℚ) : ℤ :=
  let delLow := pickRadius
  let delHigh := 1 - delLow
  let uv := gsRect
  if uv.2 < delLow then 0
  else if uv.1 > delHigh then 1
  else if uv.2 > delHigh then 2
  else if uv.1 < delLow then 3
  else -1

/-- `IsFragmentOnEdge()` of `EdgeId.Fragment.Rect`:
`any(lessThan(uv, vec2(pickRadius))) || any(greaterThan(uv, vec2(1 - pickRadius)))`. -/
def IsFragmentOnEdge_Rect (gsRect : ℚ × ℚ) : Bool :=
  let uv := gsRect
  (uv.1 < pickRadius || uv.2 < pickRadius) ||
  (uv.1 > 1 - pickRadius || uv.2 > 1 - pickRadius)

/-- `GetPrimitiveEdgeId()` of `EdgeId.Fragment.BaryFallback`. -/
def GetPrimitiveEdgeId_BaryFallback : ℤ := -1

/-- `IsFragmentOnEdge()` of `EdgeId.Fragment.BaryFallback`. -/
def IsFragmentOnEdge_BaryFallback : Bool := false

/-- The unit barycentric basis vector with component 1 at `i`
and 0 elsewhere, as named in the spec. -/
def unitBary (i : ℕ) : ℚ × ℚ × ℚ :=
  (if i = 0 then 1 else 0, if i = 1 then 1 else 0, if i = 2 then 1 else 0)

end EdgeId

namespace EdgeId

/-- C1: in `EdgeId.Fragment.Bary`, `GetPrimitiveEdgeId` expands the
interpolated input `(u, v)` to the barycentric coordinate
`(x, y, z) = (1 - u - v, u, v)` and returns 0 if `z < 0.02`,
else 1 if `x < 0.02`, else 2 if `y < 0.02`, else `-1`, in that
priority order with `pickRadius = 0.02`. -/
theorem bary_edge_id_spec (u v : ℚ) :
    ExpandBaryCoord (u, v) = (1 - u - v, u, v) ∧
    GetPrimitiveEdgeId_Bary (u, v) =
      (if v < 0.02 then 0
       else if 1 - u - v < 0.02 then 1
       else if u < 0.02 then 2
       else -1) := by
  exact ⟨rfl, rfl⟩

/-- C2: in `EdgeId.Fragment.Rect`, `GetPrimitiveEdgeId` on `uv = gsRect`
returns 0 if `uv.y < 0.02`, else 1 if `uv.x > 0.98`, else 2 if
`uv.y > 0.98`, else 3 if `uv.x < 0.02`, else `-1`, in that priority
order with `delLow = pickRadius = 0.02` and `delHigh = 1 - delLow = 0.98`. -/
theorem rect_edge_id_spec (u v : ℚ) :
    GetPrimitiveEdgeId_Rect (u, v) =
      (if v < 0.02 then 0
       else if u > 0.98 then 1
       else if v > 0.98 then 2
       else if u < 0.02 then 3
       else -1) := by
  have h : (1 : ℚ) - 0.02 = 0.98 := by norm_num
  simp only [GetPrimitiveEdgeId_Rect, pickRadius, h]

/-- C3: in both `EdgeId.Fragment.Bary` and `EdgeId.Fragment.Rect`,
`IsFragmentOnEdge()` returns true exactly when `GetPrimitiveEdgeId()`
returns a value different from `-1`: the membership test and the
identification test agree on the same `pickRadius = 0.02` thresholds. -/
theorem fragment_on_edge_iff_edge_id (g : ℚ × ℚ) :
    (IsFragmentOnEdge_Bary g = true ↔ GetPrimitiveEdgeId_Bary g ≠ -1) ∧
    (IsFragmentOnEdge_Rect g = true ↔ GetPrimitiveEdgeId_Rect g ≠ -1) := by
  obtain ⟨u, v⟩ := g
  constructor
  · simp only [IsFragmentOnEdge_Bary, GetPrimitiveEdgeId_Bary, ExpandBaryCoord,
      Bool.or_eq_true, decide_eq_true_eq]
    split_ifs <;> simp_all
  · simp only [IsFragmentOnEdge_Rect, GetPrimitiveEdgeId_Rect,
      Bool.or_eq_true, decide_eq_true_eq]
    split_ifs <;> simp_all

/-- C9: for every index in `{0, 1, 2}`, the array access in
`GetBaryCoord(index)` is in bounds, and `ExpandBaryCoord` applied to the
returned 2-component encoding recovers the unit barycentric basis vector
with component 1 at the index: the encoding round-trips. -/
theorem bary_coord_roundtrip (i : ℕ) (h : i < 3) :
    ∃ bc, GetBaryCoord i = some bc ∧ ExpandBaryCoord bc = unitBary i := by
  interval_cases i
  · exact ⟨(0, 0), by norm_num [GetBaryCoord, barys, ExpandBaryCoord, unitBary]⟩
  · exact ⟨(1, 0), by norm_num [GetBaryCoord, barys, ExpandBaryCoord, unitBary]⟩
  · exact ⟨(0, 1), by norm_num [GetBaryCoord, barys, ExpandBaryCoord, unitBary]⟩

/-- Witness for C9: instantiated at index 1. -/
theorem bary_coord_roundtrip_witness :
    ∃ bc, GetBaryCoord 1 = some bc ∧ ExpandBaryCoord bc = unitBary 1 :=
  bary_coord_roundtrip 1 (by decide)

/-- C10: in `EdgeId.Fragment.BaryFallback` (geometry stage inactive),
`GetPrimitiveEdgeId()` returns `-1` and `IsFragmentOnEdge()` returns
false unconditionally. -/
theorem bary_fallback_never_on_edge :
    GetPrimitiveEdgeId_BaryFallback = -1 ∧ IsFragmentOnEdge_BaryFallback = false := by
  exact ⟨rfl, rfl⟩

end EdgeId

namespace TranslatorSkel

/-- One influence-slot step of the weight-accumulation loop in
`_SetVaryingJointInfluences` (translatorSkel.cpp): at point `pt` and
influence slot `c`, read `jointIdx = indices[pt*nipp + c]`; when
`jointIdx` is a valid joint index, add `weights[pt*nipp + c]` into
`vertOrderedWeights[pt*numJoints + jointIdx]`, else leave the array
unchanged. -/
def influenceStep (numJoints nipp : ℕ) (indices : ℕ → ℤ) (weights : ℕ → ℚ)
    (pt : ℕ) (arr : ℕ → ℚ) (c : ℕ) : ℕ → ℚ :=
  let jointIdx := indices (pt * nipp + c)
  if 0 ≤ jointIdx ∧ jointIdx < (numJoints : ℤ) then
    Function.update arr (pt * numJoints + jointIdx.toNat)
      (arr (pt * numJoints + jointIdx.toNat) + weights (pt * nipp + c))
  else arr

/-- The inner loop over influence slots `c < numInfluencesPerPoint`
for one point `pt`. -/
def pointLoop (numJoints nipp : ℕ) (indices : ℕ → ℤ) (weights : ℕ → ℚ)
    (arr : ℕ → ℚ) (pt : ℕ) : ℕ → ℚ :=
  (List.range nipp).foldl (influenceStep numJoints nipp indices weights pt) arr

/-- The `vertOrderedWeights` array computed by `_SetVaryingJointInfluences`:
initialized to all zeros (`MDoubleArray(numPoints*numJoints, 0.0)`), then
the double loop over points and influence slots accumulates weights. -/
def vertOrderedWeights (numJoints nipp numPoints : ℕ)
    (indices : ℕ → ℤ) (weights : ℕ → ℚ) : ℕ → ℚ :=
  (List.range numPoints).foldl
    (pointLoop numJoints nipp indices weights) (fun _ => 0)

/-- `_SetVaryingJointInfluences`: returns `(returnValue, weights set on the
skin cluster)`. When the joints list is empty it returns true immediately
without setting any weights; otherwise (modelling the Maya API calls as
succeeding) it sets the vertex-ordered weights and returns true. -/
def SetVaryingJointInfluences (joints : List Unit) (indices : ℕ → ℤ)
    (weights : ℕ → ℚ) (nipp numPoints : ℕ) : Bool × Option (ℕ → ℚ) :=
  if joints.length = 0 then (true, none)
  else (true, some (vertOrderedWeights joints.length nipp numPoints indices weights))

/-- The contribution of influence slot `(pt, c)` to array position `q`. -/
def contrib (numJoints nipp : ℕ) (indices : ℕ → ℤ) (weights : ℕ → ℚ)
    (pt c q : ℕ) : ℚ :=
  let jointIdx := indices (pt * nipp + c)
  if 0 ≤ jointIdx ∧ jointIdx < (numJoints : ℤ) ∧
      q = pt * numJoints + jointIdx.toNat
  then weights (pt * nipp + c) else 0

theorem influenceStep_apply (numJoints nipp : ℕ) (indices : ℕ → ℤ)
    (weights : ℕ → ℚ) (pt c q : ℕ) (arr : ℕ → ℚ) :
    influenceStep numJoints nipp indices weights pt arr c q
      = arr q + contrib numJoints nipp indices weights pt c q := by
  unfold influenceStep contrib
  by_cases hv : 0 ≤ indices (pt * nipp + c) ∧ indices (pt * nipp + c) < (numJoints : ℤ)
  · rw [if_pos hv]
    by_cases hq : q = pt * numJoints + (indices (pt * nipp + c)).toNat
    · rw [if_pos ⟨hv.1, hv.2, hq⟩]
      subst hq
      simp [Function.update]
    · rw [if_neg (by tauto)]
      rw [Function.update_noteq hq]
      simp
  · rw [if_neg hv, if_neg (by tauto)]
    simp

theorem pointLoop_inner (numJoints nipp : ℕ) (indices : ℕ → ℤ)
    (weights : ℕ → ℚ) (pt q : ℕ) :
    ∀ (n : ℕ) (arr : ℕ → ℚ),
    (List.range n).foldl (influenceStep numJoints nipp indices weights pt) arr q
      = arr q + ∑ c in Finset.range n, contrib numJoints nipp indices weights pt c q := by
  intro n
  induction n with
  | zero => intro arr; simp
  | succ n ih =>
    intro arr
    rw [List.range_succ, List.foldl_append, List.foldl_cons, List.foldl_nil,
        influenceStep_apply, ih, Finset.sum_range_succ]
    ring

theorem pointLoop_apply (numJoints nipp : ℕ) (indices : ℕ → ℤ)
    (weights : ℕ → ℚ) (pt q : ℕ) (arr : ℕ → ℚ) :
    pointLoop numJoints nipp indices weights arr pt q
      = arr q + ∑ c in Finset.range nipp, contrib numJoints nipp indices weights pt c q :=
  pointLoop_inner numJoints nipp indices weights pt q nipp arr

theorem vertOrderedWeights_outer (numJoints nipp : ℕ) (indices : ℕ → ℤ)
    (weights : ℕ → ℚ) (q : ℕ) :
    ∀ (m : ℕ) (arr : ℕ → ℚ),
    (List.range m).foldl (pointLoop numJoints nipp indices weights) arr q
      = arr q + ∑ pt in Finset.range m,
          ∑ c in Finset.range nipp, contrib numJoints nipp indices weights pt c q := by
  intro m
  induction m with
  | zero => intro arr; simp
  | succ m ih =>
    intro arr
    rw [List.range_succ, List.foldl_append, List.foldl_cons, List.foldl_nil,
        pointLoop_apply, ih, Finset.sum_range_succ]
    ring

/-- Positions `pt*n + j` with `j < n` determine `pt` and `j` uniquely. -/
theorem mul_add_inj (a b c d n : ℕ) (hb : b < n) (hd : d < n)
    (h : a * n + b = c * n + d) : a = c ∧ b = d := by
  constructor
  · rcases Nat.lt_trichotomy a c with hlt | heq | hgt
    · exfalso
      have : a * n + b < c * n + d := by
        calc a * n + b < a * n + n := by omega
        _ = (a + 1) * n := by ring
        _ ≤ c * n := Nat.mul_le_mul_right n hlt
        _ ≤ c * n + d := by omega
      omega
    · exact heq
    · exfalso
      have : c * n + d < a * n + b := by
        calc c * n + d < c * n + n := by omega
        _ = (c + 1) * n := by ring
        _ ≤ a * n := Nat.mul_le_mul_right n hgt
        _ ≤ a * n + b := by omega
      omega
  · rcases Nat.lt_trichotomy a c with hlt | heq | hgt
    · exfalso
      have : a * n + b < c * n + d := by
        calc a * n + b < a * n + n := by omega
        _ = (a + 1) * n := by ring
        _ ≤ c * n := Nat.mul_le_mul_right n hlt
        _ ≤ c * n + d := by omega
      omega
    · subst heq; omega
    · exfalso
      have : c * n + d < a * n + b := by
        calc c * n + d < c * n + n := by omega
        _ = (c + 1) * n := by ring
        _ ≤ a * n := Nat.mul_le_mul_right n hgt
        _ ≤ a * n + b := by omega
      omega

end TranslatorSkel


namespace TranslatorSkel

theorem contrib_eq (numJoints nipp : ℕ) (indices : ℕ → ℤ) (weights : ℕ → ℚ)
    (pt c q : ℕ) :
    contrib numJoints nipp indices weights pt c q
      = if 0 ≤ indices (pt * nipp + c) ∧ indices (pt * nipp + c) < (numJoints : ℤ) ∧
            q = pt * numJoints + (indices (pt * nipp + c)).toNat
        then weights (pt * nipp + c) else 0 := rfl

/-- C4: when setting skin cluster weights, for every `pt < numPoints` and
`j < numJoints`, the vertex-ordered weight at position
`pt*numJoints + j` equals the sum over influence slots
`c < numInfluencesPerPoint` of `weights[pt*nipp + c]` such that
`indices[pt*nipp + c] == j` (entries with a negative or out-of-range
joint index contribute nothing); `_SetVaryingJointInfluences` sets
exactly these weights and returns true; and with an empty joints list it
returns true without setting any weights. -/
theorem setVaryingJointInfluences_spec (joints : List Unit) (indices : ℕ → ℤ)
    (weights : ℕ → ℚ) (nipp numPoints pt j : ℕ)
    (hpt : pt < numPoints) (hj : j < joints.length) :
    (vertOrderedWeights joints.length nipp numPoints indices weights
        (pt * joints.length + j)
      = ∑ c in Finset.range nipp,
          if indices (pt * nipp + c) = (j : ℤ)
          then weights (pt * nipp + c) else 0) ∧
    (SetVaryingJointInfluences joints indices weights nipp numPoints
      = (true,
         some (vertOrderedWeights joints.length nipp numPoints indices weights))) ∧
    (∀ i2 w2 n2 p2,
      SetVaryingJointInfluences [] i2 w2 n2 p2 = (true, none)) := by
  refine ⟨?_, ?_, fun i2 w2 n2 p2 => rfl⟩
  · have h1 : vertOrderedWeights joints.length nipp numPoints indices weights
        (pt * joints.length + j)
        = ∑ pt2 in Finset.range numPoints, ∑ c in Finset.range nipp,
            contrib joints.length nipp indices weights pt2 c
              (pt * joints.length + j) := by
      rw [vertOrderedWeights, vertOrderedWeights_outer]
      simp
    have hz : ∀ b ∈ Finset.range numPoints, b ≠ pt →
        (∑ c in Finset.range nipp, contrib joints.length nipp indices weights b c
          (pt * joints.length + j)) = 0 := by
      intro b _ hb
      apply Finset.sum_eq_zero
      intro c _
      rw [contrib_eq, if_neg]
      rintro ⟨h0, hlt, hq⟩
      have htn : (indices (b * nipp + c)).toNat < joints.length := by omega
      exact hb (mul_add_inj b (indices (b * nipp + c)).toNat pt j joints.length
        htn hj hq.symm).1
    rw [h1, Finset.sum_eq_single_of_mem pt (Finset.mem_range.mpr hpt) hz]
    refine Finset.sum_congr rfl ?_
    intro c _
    rw [contrib_eq]
    by_cases h : indices (pt * nipp + c) = (j : ℤ)
    · rw [if_pos, if_pos h]
      refine ⟨by omega, by omega, ?_⟩
      rw [h]
      simp
    · rw [if_neg h, if_neg]
      rintro ⟨h0, hlt, hq⟩
      apply h
      have hj2 : j = (indices (pt * nipp + c)).toNat := by omega
      rw [hj2, Int.toNat_of_nonneg h0]
  · rw [SetVaryingJointInfluences, if_neg (by omega)]

/-- Concrete joints list for the C4 witness: two joints. -/
def wJoints : List Unit := [(), ()]

/-- Concrete influence indices for the C4 witness: every slot references
joint 1. -/
def wIndices : ℕ → ℤ := fun _ => 1

/-- Concrete influence weights for the C4 witness. -/
def wWeights : ℕ → ℚ := fun s => (s : ℚ) + 1

/-- Witness for C4: two joints, one point, two influence slots, both
slots referencing joint 1. -/
theorem setVaryingJointInfluences_spec_witness :
    (vertOrderedWeights wJoints.length 2 1 wIndices wWeights
        (0 * wJoints.length + 1)
      = ∑ c in Finset.range 2,
          if wIndices (0 * 2 + c) = ((1 : ℕ) : ℤ)
          then wWeights (0 * 2 + c) else 0) ∧
    (SetVaryingJointInfluences wJoints wIndices wWeights 2 1
      = (true, some (vertOrderedWeights wJoints.length 2 1 wIndices wWeights))) ∧
    (∀ i2 w2 n2 p2,
      SetVaryingJointInfluences [] i2 w2 n2 p2 = (true, none)) :=
  setVaryingJointInfluences_spec wJoints wIndices wWeights 2 1 0 1
    (by decide) (by decide)

end TranslatorSkel

namespace TranslatorSkel

/-- First loop of `_SetJointRadii`: for each joint `i` whose parent index
is valid, set `radii[parent] = 0.1 * length(pivot_i - pivot_parent)`
(an overwriting assignment, `radii[parent] = radius` in the source) and
increment `childCounts[parent]`. `radii` starts at all ones and
`childCounts` at all zeros. The joint pivots (rest-transform
translations) and the distance function (`GfVec3d::GetLength`, external
to this repository) are abstract parameters. -/
def radiiPass1 {α : Type} (n : ℕ) (parentFn : ℕ → ℤ) (pivot : ℕ → α)
    (dist : α → α → ℚ) : (ℕ → ℚ) × (ℕ → ℕ) :=
  (List.range n).foldl
    (fun st i =>
      let p := parentFn i
      if 0 ≤ p ∧ p < (n : ℤ) then
        (Function.update st.1 p.toNat (0.1 * dist (pivot i) (pivot p.toNat)),
         Function.update st.2 p.toNat (st.2 p.toNat + 1))
      else st)
    (fun _ => 1, fun _ => 0)

/-- Second loop of `_SetJointRadii`: resolve each joint's radius in index
order. A joint with children gets `radii[i] / childCounts[i]`; a
childless joint with a valid parent gets the (current) `radii[parent]`;
otherwise the radius is 1.0. The resolved value is written back into
`radii[i]` and set on the joint's radius plug (collected in the output
list, in joint order). -/
def radiiPass2 (n : ℕ) (parentFn : ℕ → ℤ) (st : (ℕ → ℚ) × (ℕ → ℕ)) :
    (ℕ → ℚ) × List ℚ :=
  (List.range n).foldl
    (fun acc i =>
      let count := st.2 i
      let radius : ℚ :=
        if count > 0 then acc.1 i / count
        else
          let p := parentFn i
          if 0 ≤ p ∧ p < (n : ℤ) then acc.1 p.toNat else 1
      (Function.update acc.1 i radius, acc.2 ++ [radius]))
    (st.1, [])

/-- `_SetJointRadii`: the list of radius plug values set on the joint
nodes, in joint order. -/
def SetJointRadii {α : Type} (n : ℕ) (parentFn : ℕ → ℤ) (pivot : ℕ → α)
    (dist : α → α → ℚ) : List ℚ :=
  (radiiPass2 n parentFn (radiiPass1 n parentFn pivot dist)).2

/-- Modelled from the spec: the radius the claim describes for a joint
with children, namely 0.1 times the average distance from the joint's
rest translation to each child's rest translation. -/
def claimedParentRadius {α : Type} (n : ℕ) (parentFn : ℕ → ℤ) (pivot : ℕ → α)
    (dist : α → α → ℚ) (i : ℕ) : ℚ :=
  let childCount := (List.range n).countP (fun k => parentFn k = (i : ℤ))
  0.1 * ((∑ k in Finset.range n,
           if parentFn k = (i : ℤ) then dist (pivot k) (pivot i) else 0)
         / childCount)

/-- Parent indices of the C7 failing input: joint 0 is a root, joints 1
and 2 are children of joint 0. -/
def exParent : ℕ → ℤ := fun i => if i = 0 then -1 else 0

/-- Pivots of the C7 failing input (collinear, so 1-dimensional
coordinates suffice): joint 0 at 0, joint 1 at 10, joint 2 at 20. -/
def exPivot : ℕ → ℚ := fun i => if i = 1 then 10 else if i = 2 then 20 else 0

/-- Distance between collinear pivots. -/
def exDist : ℚ → ℚ → ℚ := fun a b => |a - b|

/-- C7: evaluating `_SetJointRadii` on a skeleton where joint 0 has two
children with bone lengths 10 and 20. The claim (and the code's own
comments, `/// Set the radius ... in proportion to the average length of
each child bone` and `// Compute average radii`) say joint 0's radius
should be `0.1 * (10 + 20) / 2 = 3/2`, but because the first loop
overwrites `radii[parent]` instead of accumulating, the code sets
`(0.1 * 20) / 2 = 1`. -/
theorem setJointRadii_overwrites_instead_of_averaging :
    SetJointRadii 3 exParent exPivot exDist = [1, 1, 1] ∧
    claimedParentRadius 3 exParent exPivot exDist 0 = 3 / 2 ∧
    (1 : ℚ) ≠ 3 / 2 := by
  refine ⟨?_, ?_, by norm_num⟩
  · show (radiiPass2 3 exParent (radiiPass1 3 exParent exPivot exDist)).2 = _
    have h1 : radiiPass1 3 exParent exPivot exDist
        = (Function.update (Function.update (fun _ => 1) 0 1) 0 2,
           Function.update (Function.update (fun _ => 0) 0 1) 0 2) := by
      simp only [radiiPass1, List.range_succ, List.range_zero,
        List.nil_append, List.foldl_append, List.foldl_cons, List.foldl_nil,
        exParent, exPivot, exDist]
      norm_num [Function.update]
    rw [h1]
    simp only [radiiPass2, List.range_succ, List.range_zero,
      List.nil_append, List.foldl_append, List.foldl_cons, List.foldl_nil,
      exParent]
    norm_num [Function.update]
  · simp only [claimedParentRadius, List.range_succ, List.range_zero,
      List.nil_append, List.countP_append, exParent, exPivot, exDist]
    rw [Finset.sum_range_succ, Finset.sum_range_succ, Finset.sum_range_succ,
      Finset.sum_range_zero]
    norm_num [exParent, exPivot, exDist, List.countP, List.countP.go]

end TranslatorSkel

namespace TranslatorSkel

/-- Outcome of the early-return portion of `CreateSkinCluster`. -/
inductive SkinClusterOutcome where
  | returnedFalse
  | returnedTrueNoRig
  | proceedsToRig
deriving DecidableEq

/-- The early control flow of `PxrUsdMayaTranslatorSkel::CreateSkinCluster`:
an invalid `skelQuery` returns false; an invalid `skinningQuery` emits
`TF_CODING_ERROR` but does NOT return (the source lacks a `return false`
in that branch, so execution falls through); an invalid `primToSkin`
returns false; an unregistered prim path (`objToSkin` null) returns true
without creating rig nodes; a resolved shape that is not a mesh returns
true without creating rig nodes; otherwise the function proceeds to
build the skin cluster rig (the Maya path-resolution calls are modelled
as succeeding). -/
def CreateSkinClusterEarly (skelValid skinningValid primValid : Bool)
    (objToSkin : Option ℕ) (shapeIsMesh : Bool) : SkinClusterOutcome :=
  if !skelValid then .returnedFalse
  else
    let _ := skinningValid  -- checked, error reported, but no early return
    if !primValid then .returnedFalse
    else
      match objToSkin with
      | none => .returnedTrueNoRig
      | some _ =>
        if !shapeIsMesh then .returnedTrueNoRig else .proceedsToRig

/-- C8: the early returns of `CreateSkinCluster`. An invalid `skelQuery`
or invalid `primToSkin` returns false, an unregistered prim path or a
non-mesh shape returns true without creating rig nodes — but, contrary
to the claim, an invalid `skinningQuery` does NOT make the function
return false: the outcome is independent of `skinningValid` (the
`TF_CODING_ERROR` branch is missing its `return false`), and with an
invalid skinning query and an unregistered prim the function returns
true. -/
theorem createSkinCluster_skinning_check_falls_through :
    (∀ sv pv o m, CreateSkinClusterEarly false sv pv o m
      = SkinClusterOutcome.returnedFalse) ∧
    (∀ sv o m, CreateSkinClusterEarly true sv false o m
      = SkinClusterOutcome.returnedFalse) ∧
    (∀ sv m, CreateSkinClusterEarly true sv true none m
      = SkinClusterOutcome.returnedTrueNoRig) ∧
    (∀ sv k, CreateSkinClusterEarly true sv true (some k) false
      = SkinClusterOutcome.returnedTrueNoRig) ∧
    (∀ sv o m, CreateSkinClusterEarly true false true o m
      = CreateSkinClusterEarly true sv true o m) ∧
    (CreateSkinClusterEarly true false true none true
      = SkinClusterOutcome.returnedTrueNoRig ∧
     CreateSkinClusterEarly true false true none true
      ≠ SkinClusterOutcome.returnedFalse) := by
  refine ⟨fun sv pv o m => rfl, fun sv o m => rfl, fun sv m => rfl,
    fun sv k => rfl, fun sv o m => rfl, rfl, by decide⟩

end TranslatorSkel

namespace TranslatorSkel

/-- A plug in the bind-pose dependency-graph wiring: either a plug on a
joint node (identified by its Maya node id) or an (array element) plug
on the created `bindPose` dagPose node. -/
inductive BPPlug where
  | jointMessage (joint : ℕ)
  | jointBindPose (joint : ℕ)
  | members (i : ℕ)
  | worldMatrix (i : ℕ)
  | parents (i : ℕ)
  | world
deriving DecidableEq

/-- The observable effects of `CreateBindPose`: the node it creates, the
DG connections it requests (in order, as `(source, destination)` pairs),
and the `xformMatrix[i]` values it sets. `α` is the matrix type
(`GfMatrix4d` is opaque here). -/
structure BindPoseOut (α : Type) where
  nodeType : String
  nodeName : String
  connections : List (BPPlug × BPPlug)
  xformMatrix : List (ℕ × α)

/-- One iteration of the per-joint loop in `CreateBindPose`: skip a null
joint object; otherwise connect `joint_i.message -> bindPose.members[i]`
and `joint_i.bindPose -> bindPose.worldMatrix[i]`, connect
`bindPose.members[parentIdx] -> bindPose.parents[i]` when `parentIdx` is
a valid joint index and `bindPose.world -> bindPose.parents[i]`
otherwise, and set `bindPose.xformMatrix[i]` to the joint's local rest
transform. -/
def bindPoseStep {α : Type} (n : ℕ) (joints : List (Option ℕ))
    (parentFn : ℕ → ℤ) (xforms : ℕ → α)
    (acc : List (BPPlug × BPPlug) × List (ℕ × α)) (i : ℕ) :
    List (BPPlug × BPPlug) × List (ℕ × α) :=
  match joints.getD i none with
  | none => acc
  | some j =>
    let parentIdx := parentFn i
    let parentConn :=
      if 0 ≤ parentIdx ∧ parentIdx < (n : ℤ) then
        (BPPlug.members parentIdx.toNat, BPPlug.parents i)
      else
        (BPPlug.world, BPPlug.parents i)
    (acc.1 ++ [(BPPlug.jointMessage j, BPPlug.members i),
               (BPPlug.jointBindPose j, BPPlug.worldMatrix i),
               parentConn],
     acc.2 ++ [(i, xforms i)])

/-- `PxrUsdMayaTranslatorSkel::CreateBindPose`: creates a `dagPose` node
renamed to `bindPose`, then wires up the per-joint connections in joint
order. `parentFn` is `skelQuery.GetTopology().GetParent` and `xforms`
the joint-local rest transforms (`ComputeJointLocalTransforms` with
`atRest = true`, external to this file). -/
def CreateBindPose {α : Type} (joints : List (Option ℕ)) (parentFn : ℕ → ℤ)
    (xforms : ℕ → α) : BindPoseOut α :=
  let n := joints.length
  let res := (List.range n).foldl (bindPoseStep n joints parentFn xforms) ([], [])
  ⟨"dagPose", "bindPose", res.1, res.2⟩

/-- Connection block contributed by joint `i`. -/
def connBlock {α : Type} (n : ℕ) (joints : List (Option ℕ))
    (parentFn : ℕ → ℤ) (xforms : ℕ → α) (i : ℕ) : List (BPPlug × BPPlug) :=
  (bindPoseStep n joints parentFn xforms ([], []) i).1

/-- `xformMatrix` block contributed by joint `i`. -/
def xfBlock {α : Type} (n : ℕ) (joints : List (Option ℕ))
    (parentFn : ℕ → ℤ) (xforms : ℕ → α) (i : ℕ) : List (ℕ × α) :=
  (bindPoseStep n joints parentFn xforms ([], []) i).2

theorem bindPoseStep_acc {α : Type} (n : ℕ) (joints : List (Option ℕ))
    (parentFn : ℕ → ℤ) (xforms : ℕ → α) (acc) (i : ℕ) :
    bindPoseStep n joints parentFn xforms acc i
      = (acc.1 ++ connBlock n joints parentFn xforms i,
         acc.2 ++ xfBlock n joints parentFn xforms i) := by
  unfold connBlock xfBlock
  match h : joints.getD i none with
  | none => simp only [bindPoseStep, h]; simp
  | some j => simp only [bindPoseStep, h]; simp

theorem bindPoseFold {α : Type} (n : ℕ) (joints : List (Option ℕ))
    (parentFn : ℕ → ℤ) (xforms : ℕ → α) :
    ∀ (m : ℕ) (acc : List (BPPlug × BPPlug) × List (ℕ × α)),
    (List.range m).foldl (bindPoseStep n joints parentFn xforms) acc
      = (acc.1 ++ List.flatten ((List.range m).map
            (connBlock n joints parentFn xforms)),
         acc.2 ++ List.flatten ((List.range m).map
            (xfBlock n joints parentFn xforms))) := by
  intro m
  induction m with
  | zero => intro acc; simp
  | succ m ih =>
    intro acc
    rw [List.range_succ, List.foldl_append, List.foldl_cons, List.foldl_nil,
        ih, bindPoseStep_acc]
    simp [List.range_succ]

/-- C6: for every joint list (of valid Maya joint objects) of length `n`,
`CreateBindPose` creates one `dagPose` node named `bindPose` and, for
each joint `i < n` in order, connects `joint_i.message` to
`bindPose.members[i]` and `joint_i.bindPose` to `bindPose.worldMatrix[i]`,
connects `bindPose.parents[i]` with `bindPose.members[parent(i)]` when
`parent(i)` is a valid index in `[0, n)` and with `bindPose.world`
otherwise, and sets `bindPose.xformMatrix[i]` to joint `i`'s local rest
transform. -/
theorem createBindPose_spec {α : Type} (js : List ℕ) (parentFn : ℕ → ℤ)
    (xforms : ℕ → α) :
    (CreateBindPose (js.map some) parentFn xforms).nodeType = "dagPose" ∧
    (CreateBindPose (js.map some) parentFn xforms).nodeName = "bindPose" ∧
    (CreateBindPose (js.map some) parentFn xforms).connections
      = List.flatten ((List.range js.length).map (fun i =>
          [(BPPlug.jointMessage (js.getD i 0), BPPlug.members i),
           (BPPlug.jointBindPose (js.getD i 0), BPPlug.worldMatrix i),
           if 0 ≤ parentFn i ∧ parentFn i < (js.length : ℤ)
           then (BPPlug.members (parentFn i).toNat, BPPlug.parents i)
           else (BPPlug.world, BPPlug.parents i)])) ∧
    (CreateBindPose (js.map some) parentFn xforms).xformMatrix
      = (List.range js.length).map (fun i => (i, xforms i)) := by
  have hget : ∀ i, i < js.length →
      (js.map some).getD i none = some (js.getD i 0) := by
    intro i hi
    rw [List.getD_eq_getElem?_getD, List.getElem?_map,
        List.getElem?_eq_getElem hi, List.getD_eq_getElem?_getD,
        List.getElem?_eq_getElem hi]
    rfl
  refine ⟨rfl, rfl, ?_, ?_⟩
  · show ((List.range (js.map some).length).foldl
      (bindPoseStep (js.map some).length (js.map some) parentFn xforms)
      ([], [])).1 = _
    rw [bindPoseFold]
    simp only [List.nil_append, List.length_map]
    congr 1
    apply List.map_congr_left
    intro i hi
    rw [List.mem_range] at hi
    unfold connBlock bindPoseStep
    rw [hget i hi]
    simp
  · show ((List.range (js.map some).length).foldl
      (bindPoseStep (js.map some).length (js.map some) parentFn xforms)
      ([], [])).2 = _
    rw [bindPoseFold]
    simp only [List.nil_append, List.length_map]
    have : ∀ i ∈ List.range js.length,
        xfBlock js.length (js.map some) parentFn xforms i = [(i, xforms i)] := by
      intro i hi
      rw [List.mem_range] at hi
      unfold xfBlock bindPoseStep
      rw [hget i hi]
      simp
    rw [List.map_congr_left this]
    clear this
    induction js.length with
    | zero => simp
    | succ m ih => rw [List.range_succ]; simp [ih]

end TranslatorSkel

namespace TranslatorSkel

/-- A scene path (`SdfPath`), as a list of path components. `AppendPath`
is list append and `GetParentPath` drops the last component; a path is
`IsEmpty` when it has no components. -/
abbrev ScenePath := List String

/-- The import context state: the registry of Maya nodes registered so
far (most recent first, keyed by scene path), the log of node creations
`(path, parent node, new node)` in creation order, and the next fresh
node id. -/
structure Ctx where
  registry : List (ScenePath × ℕ)
  log : List (ScenePath × ℕ × ℕ)
  nextId : ℕ

/-- Modelled from the spec: `PxrUsdMayaPrimReaderContext::GetMayaNode`
(only declared in this fragment) returns the Maya node previously
registered for the given path, if any. -/
def getMayaNode (registry : List (ScenePath × ℕ)) (p : ScenePath) : Option ℕ :=
  (registry.find? (fun e => e.1 == p)).map (fun e => e.2)

/-- Modelled from the spec: `PxrUsdMayaTranslatorUtil::CreateNode` (only
declared in this fragment) creates a fresh Maya node at the given path
under the given parent node and registers it with the context. -/
def createNode (ctx : Ctx) (p : ScenePath) (parent : ℕ) : Ctx × ℕ :=
  let nid := ctx.nextId
  (⟨(p, nid) :: ctx.registry, ctx.log ++ [(p, parent, nid)], nid + 1⟩, nid)

/-- `_CreateJointNodes`: iterate over the skeleton's joint order. An
entry with an empty joint path is skipped (`continue`), leaving a null
`MObject` (`none`) in the output vector. Otherwise look up the Maya
node for the parent path of `skelPath ++ jointPath`; if it cannot be
found, fail (return false, modelled as `none`), else create the joint
node under it. On success returns the final context and the
`jointNodes` vector. -/
def CreateJointNodes (skelPath : ScenePath) :
    List ScenePath → Ctx → Option (Ctx × List (Option ℕ))
  | [], ctx => some (ctx, [])
  | jp :: rest, ctx =>
    if jp = [] then
      (CreateJointNodes skelPath rest ctx).map (fun r => (r.1, none :: r.2))
    else
      (getMayaNode ctx.registry (skelPath ++ jp).dropLast).bind (fun parent =>
        let res := createNode ctx (skelPath ++ jp) parent
        (CreateJointNodes skelPath rest res.1).map
          (fun r => (r.1, some res.2 :: r.2)))

theorem createJointNodes_length (skelPath : ScenePath) :
    ∀ (names : List ScenePath) (ctx ctx2 : Ctx) (nodes : List (Option ℕ)),
    CreateJointNodes skelPath names ctx = some (ctx2, nodes) →
    nodes.length = names.length := by
  intro names
  induction names with
  | nil =>
    intro ctx ctx2 nodes h
    simp only [CreateJointNodes, Option.some.injEq, Prod.mk.injEq] at h
    obtain ⟨-, h2⟩ := h
    subst h2
    rfl
  | cons jp rest ih =>
    intro ctx ctx2 nodes h
    simp only [CreateJointNodes] at h
    by_cases hjp : jp = []
    · rw [if_pos hjp] at h
      rcases hrun : CreateJointNodes skelPath rest ctx with _ | r
      · rw [hrun] at h; simp at h
      · rw [hrun] at h
        simp only [Option.map_some', Option.some.injEq, Prod.mk.injEq] at h
        obtain ⟨-, h2⟩ := h
        subst h2
        simp [ih ctx r.1 r.2 (by rw [hrun])]
    · rw [if_neg hjp] at h
      rcases hlk : getMayaNode ctx.registry (skelPath ++ jp).dropLast with _ | parent
      · rw [hlk, Option.none_bind] at h; simp at h
      · rw [hlk, Option.some_bind] at h
        rcases hrun : CreateJointNodes skelPath rest
            (createNode ctx (skelPath ++ jp) parent).1 with _ | r
        · rw [hrun] at h; simp at h
        · rw [hrun] at h
          simp only [Option.map_some', Option.some.injEq, Prod.mk.injEq] at h
          obtain ⟨-, h2⟩ := h
          subst h2
          simp [ih _ r.1 r.2 (by rw [hrun])]

theorem createJointNodes_log (skelPath : ScenePath) :
    ∀ (names : List ScenePath) (ctx ctx2 : Ctx) (nodes : List (Option ℕ)),
    CreateJointNodes skelPath names ctx = some (ctx2, nodes) →
    ∃ tail, ctx2.log = ctx.log ++ tail ∧
      tail.map (fun e => e.1)
        = (names.filter (fun p => decide (p ≠ []))).map (fun p => skelPath ++ p) := by
  intro names
  induction names with
  | nil =>
    intro ctx ctx2 nodes h
    simp only [CreateJointNodes, Option.some.injEq, Prod.mk.injEq] at h
    obtain ⟨h1, -⟩ := h
    subst h1
    exact ⟨[], by simp⟩
  | cons jp rest ih =>
    intro ctx ctx2 nodes h
    simp only [CreateJointNodes] at h
    by_cases hjp : jp = []
    · rw [if_pos hjp] at h
      rcases hrun : CreateJointNodes skelPath rest ctx with _ | r
      · rw [hrun] at h; simp at h
      · rw [hrun] at h
        simp only [Option.map_some', Option.some.injEq, Prod.mk.injEq] at h
        obtain ⟨h1, -⟩ := h
        subst h1
        obtain ⟨tail, ht1, ht2⟩ := ih ctx r.1 r.2 (by rw [hrun])
        exact ⟨tail, ht1, by simp [hjp, ht2]⟩
    · rw [if_neg hjp] at h
      rcases hlk : getMayaNode ctx.registry (skelPath ++ jp).dropLast with _ | parent
      · rw [hlk, Option.none_bind] at h; simp at h
      · rw [hlk, Option.some_bind] at h
        rcases hrun : CreateJointNodes skelPath rest
            (createNode ctx (skelPath ++ jp) parent).1 with _ | r
        · rw [hrun] at h; simp at h
        · rw [hrun] at h
          simp only [Option.map_some', Option.some.injEq, Prod.mk.injEq] at h
          obtain ⟨h1, -⟩ := h
          subst h1
          obtain ⟨tail, ht1, ht2⟩ := ih _ r.1 r.2 (by rw [hrun])
          refine ⟨(skelPath ++ jp, parent, ctx.nextId) :: tail, ?_, ?_⟩
          · rw [ht1]
            simp [createNode]
          · simp [hjp, ht2]

theorem createJointNodes_append (skelPath : ScenePath) :
    ∀ (l1 l2 : List ScenePath) (ctx : Ctx),
    CreateJointNodes skelPath (l1 ++ l2) ctx
      = (CreateJointNodes skelPath l1 ctx).bind
          (fun r => (CreateJointNodes skelPath l2 r.1).map
            (fun r2 => (r2.1, r.2 ++ r2.2))) := by
  intro l1
  induction l1 with
  | nil =>
    intro l2 ctx
    rw [List.nil_append]
    rcases hr : CreateJointNodes skelPath l2 ctx with _ | r
    · simp [CreateJointNodes, hr]
    · simp [CreateJointNodes, hr]
  | cons jp rest ih =>
    intro l2 ctx
    rw [List.cons_append]
    simp only [CreateJointNodes]
    by_cases hjp : jp = []
    · rw [if_pos hjp, if_pos hjp, ih]
      rcases h1 : CreateJointNodes skelPath rest ctx with _ | r
      · simp
      · rcases h2 : CreateJointNodes skelPath l2 r.1 with _ | r2 <;> simp [h2]
    · rw [if_neg hjp, if_neg hjp]
      rcases hlk : getMayaNode ctx.registry (skelPath ++ jp).dropLast with _ | parent
      · simp
      · rw [Option.some_bind, Option.some_bind, ih]
        rcases h1 : CreateJointNodes skelPath rest
            (createNode ctx (skelPath ++ jp) parent).1 with _ | r
        · simp
        · rcases h2 : CreateJointNodes skelPath l2 r.1 with _ | r2 <;> simp [h2]

end TranslatorSkel

namespace TranslatorSkel

/-- Context for the C5 counterexample: the Skeleton transform node (id 0)
is already registered at the skeleton path. -/
def cctx : Ctx := ⟨[(["R", "S"], 0)], [], 1⟩

/-- C5 counterexample: a joint order with a single entry whose joint
path is empty. `_CreateJointNodes` succeeds but creates no Maya joint
node at all (the creation log stays empty and the output slot is a null
`MObject`), refuting "creates exactly one Maya joint node per entry of
the skeleton's joint order". -/
theorem createJointNodes_empty_entry_counterexample :
    CreateJointNodes ["R", "S"] [[]] cctx = some (cctx, [none]) ∧
    cctx.log.length = 0 ∧ ([[]] : List ScenePath).length = 1 := by
  exact ⟨rfl, rfl, rfl⟩

/-- C5 (amended): whenever `_CreateJointNodes` succeeds, the output
joints vector has the same length as the joint order; exactly one Maya
joint node is created per entry with a non-empty joint path (entries
with empty paths are skipped, leaving a null entry), in joint-order
sequence — so ancestors are created before descendants whenever the
joint order lists ancestors first; each created joint is recorded as
parented under the Maya node registered at that moment for its parent
path; and the function returns false when the parent node of any
(non-empty) joint cannot be found. -/
theorem createJointNodes_amended_spec (skelPath : ScenePath)
    (names : List ScenePath) (ctx : Ctx) :
    (∀ ctx2 nodes, CreateJointNodes skelPath names ctx = some (ctx2, nodes) →
      nodes.length = names.length ∧
      (∃ tail, ctx2.log = ctx.log ++ tail ∧
        tail.map (fun e => e.1)
          = (names.filter (fun p => decide (p ≠ []))).map (fun p => skelPath ++ p)) ∧
      (∀ k jp, names[k]? = some jp → jp ≠ [] →
        ∃ ctxk nodesk parent,
          CreateJointNodes skelPath (names.take k) ctx = some (ctxk, nodesk) ∧
          getMayaNode ctxk.registry (skelPath ++ jp).dropLast = some parent ∧
          nodes[k]? = some (some ctxk.nextId) ∧
          (skelPath ++ jp, parent, ctxk.nextId) ∈ ctx2.log)) ∧
    (∀ k jp ctxk nodesk,
      names[k]? = some jp → jp ≠ [] →
      CreateJointNodes skelPath (names.take k) ctx = some (ctxk, nodesk) →
      getMayaNode ctxk.registry (skelPath ++ jp).dropLast = none →
      CreateJointNodes skelPath names ctx = none) := by
  constructor
  · intro ctx2 nodes h
    refine ⟨createJointNodes_length skelPath names ctx ctx2 nodes h,
            createJointNodes_log skelPath names ctx ctx2 nodes h, ?_⟩
    intro k jp hk hjp
    obtain ⟨hklen, hgetk⟩ := List.getElem?_eq_some.mp hk
    have hdrop : names.drop k = jp :: names.drop (k + 1) := by
      rw [List.drop_eq_getElem_cons hklen, hgetk]
    have happ := createJointNodes_append skelPath (names.take k) (names.drop k) ctx
    rw [List.take_append_drop, h] at happ
    rcases hpre : CreateJointNodes skelPath (names.take k) ctx with _ | rk
    · rw [hpre] at happ; simp at happ
    · obtain ⟨ctxk, nodesk⟩ := rk
      rw [hpre] at happ
      simp only [Option.some_bind] at happ
      rw [hdrop] at happ
      simp only [CreateJointNodes] at happ
      rw [if_neg hjp] at happ
      rcases hlk2 : getMayaNode ctxk.registry (skelPath ++ jp).dropLast with _ | parent
      · rw [hlk2] at happ; simp at happ
      · rw [hlk2] at happ
        simp only [Option.some_bind] at happ
        rcases hrest : CreateJointNodes skelPath (names.drop (k + 1))
            (createNode ctxk (skelPath ++ jp) parent).1 with _ | rr
        · rw [hrest] at happ; simp at happ
        · obtain ⟨ctxr, nodesr⟩ := rr
          rw [hrest] at happ
          simp only [Option.map_some', Option.some.injEq, Prod.mk.injEq] at happ
          obtain ⟨hc2, hn2⟩ := happ
          have hlenk : nodesk.length = k := by
            have := createJointNodes_length skelPath (names.take k) ctx ctxk nodesk hpre
            rw [this, List.length_take]
            omega
          refine ⟨ctxk, nodesk, parent, rfl, hlk2, ?_, ?_⟩
          · rw [hn2, List.getElem?_append_right (by omega)]
            simp [hlenk, createNode]
          · obtain ⟨tail, ht1, -⟩ := createJointNodes_log skelPath
              (names.drop (k + 1)) _ ctxr nodesr hrest
            rw [hc2, ht1]
            have : (createNode ctxk (skelPath ++ jp) parent).1.log
                = ctxk.log ++ [(skelPath ++ jp, parent, ctxk.nextId)] := by
              simp [createNode]
            rw [this]
            simp
  · intro k jp ctxk nodesk hk hjp hpre hlkn
    obtain ⟨hklen, hgetk⟩ := List.getElem?_eq_some.mp hk
    have hdrop : names.drop k = jp :: names.drop (k + 1) := by
      rw [List.drop_eq_getElem_cons hklen, hgetk]
    have happ := createJointNodes_append skelPath (names.take k) (names.drop k) ctx
    rw [List.take_append_drop] at happ
    rw [happ, hpre]
    simp only [Option.some_bind]
    rw [hdrop]
    simp only [CreateJointNodes]
    rw [if_neg hjp, hlkn]
    simp

end TranslatorSkel
